import Mathlib

/-!
# Verification of the Fluid runtime-reconciliation slice

Shallow embedding of the Go sources of the JiGuoDing/fluid slice:

* `cmd/alluxio/app/alluxio.go` — flag registration and the `handle`
  bootstrap sequence for the alluxioruntime controller;
* the alluxio `RuntimeReconciler.Reconcile` load path
  (`pkg/controllers/v1alpha1/alluxio`);
* `vendor/sigs.k8s.io/controller-runtime/pkg/client/config/config.go` —
  `GetConfigWithContext`;
* components whose implementation is not part of the slice (port
  allocator, engine registry, rate limiter, `InferEngineImpl`) are
  modelled from the specification, as marked on each definition.

Machine integers are modelled as `Int`/`Nat` (Go `time.Duration` is an
`int64`; no arithmetic in the embedded code overflows on the inputs the
theorems touch), Go `float32` fields that are only compared to and
assigned literals are modelled as `ℚ`, fallible Go functions return
`Option`/`Except`.
-/

namespace Fluid

/-- A Kubernetes resource identity: the flattened (namespace, name) key. -/
abbrev Identity := String

/-! ## Engine kind inference

`ddc.InferEngineImpl` is called from `Reconcile`
(`src/unnamed/part_000`, line 146) but its body is not part of the
slice; it is modelled from the spec. -/

/-- Modelled from the spec: `ddc.InferEngineImpl` (absent from `src/`).
"if the resource's recorded status already names an engine
implementation …, that recorded kind is authoritative and overrides any
default"; "resource status carries an optional enum field naming its
bound engine kind once set; absence falls back to a configured
default". -/
def InferEngineImpl (recorded : Option String) (defaultImpl : String) : String :=
  match recorded with
  | some kind => kind
  | none => defaultImpl

/-! ## `GetConfigWithContext`
(`src/vendor/sigs.k8s.io/controller-runtime/pkg/client/config/config.go`,
lines 103–115.)

Only the fields `GetConfigWithContext` reads or writes are embedded.
`QPS` is a Go `float32` that the function only compares to `0.0` and
assigns `20.0`; both operations are exact, so it is modelled as `ℚ`. -/

structure RestConfig where
  QPS : ℚ
  Burst : Int
  deriving DecidableEq, Repr

/-- The result of `loadConfig(context)`: either an error or a loaded
config. `GetConfigWithContext` treats `loadConfig` as a black box, so
the embedding takes its result as input. -/
abbrev LoadConfigResult := Except String RestConfig

/-- `GetConfigWithContext` (config.go, lines 103–115): propagate the
load error, otherwise default a zero QPS to `20.0` and a zero Burst to
`30`. -/
def GetConfigWithContext (loaded : LoadConfigResult) : LoadConfigResult :=
  match loaded with
  | .error e => .error e
  | .ok cfg =>
    let cfg := if cfg.QPS = 0 then { cfg with QPS := 20 } else cfg
    let cfg := if cfg.Burst = 0 then { cfg with Burst := 30 } else cfg
    .ok cfg

/-! ## The alluxio `RuntimeReconciler.Reconcile` load path
(`src/unnamed/part_000`, lines 116–151.) -/

/-- Errors returned by `r.getRuntime`: the embedding distinguishes the
Kubernetes NotFound error from every other error, which is all that
`Reconcile`'s `utils.IgnoreNotFound` test observes. -/
inductive LoadErr where
  | notFound
  | other (msg : String)
  deriving DecidableEq, Repr

/-- Modelled from the spec: `utils.IgnoreNotFound` (absent from
`src/`), the standard `client.IgnoreNotFound` semantics the spec
describes as "`NotFound` (resource vanished — treat as already-Gone,
not an error)": it maps a NotFound error to nil (`none`) and passes
every other error through. -/
def IgnoreNotFound : LoadErr → Option LoadErr
  | .notFound => none
  | .other msg => some (.other msg)

/-- `ctrl.Result`: `ctrl.Result{}` is `⟨false, 0⟩`. -/
structure CtrlResult where
  requeue : Bool
  requeueAfter : Int
  deriving DecidableEq, Repr

def emptyResult : CtrlResult := ⟨false, 0⟩

/-- Modelled from the spec: `utils.RequeueIfError` (absent from
`src/`): returns an empty `ctrl.Result` together with the error, which
makes the controller requeue the request with backoff ("`Transient` …
requeue with backoff"). -/
def RequeueIfError (err : LoadErr) : CtrlResult × Option LoadErr :=
  (emptyResult, some err)

/-- Modelled from the spec: `errors.Wrap` (external library): annotates
the error with a message, keeping it an error. In the embedding the
`LoadErr` classification is preserved and the message prepended. -/
def wrapErr (msg : String) : LoadErr → LoadErr
  | .notFound => .notFound
  | .other m => .other (msg ++ ": " ++ m)

/-- The in-memory state of the alluxio `RuntimeReconciler`
(`src/unnamed/part_000`, lines 89–94): the `engines` map guarded by
`mutex`. Engines are kept abstract (`String` names suffice for the
frame property). -/
structure ReconcilerState where
  engines : List (Identity × String)
  deriving DecidableEq, Repr

/-- The runtime object returned by a successful `getRuntime`: only the
field `Reconcile` itself reads (the status' recorded engine kind, fed
to `InferEngineImpl`) is embedded. -/
structure RuntimeObject where
  statusEngineImpl : Option String
  deriving DecidableEq, Repr

/-- `common.AlluxioEngineImpl`, the default engine kind `Reconcile`
passes to `InferEngineImpl` (`src/unnamed/part_000`, line 146). -/
def AlluxioEngineImpl : String := "alluxio"

/-- `RuntimeReconciler.Reconcile` (`src/unnamed/part_000`, lines
116–151), embedded from the load phase on.  `getRuntime`'s outcome is
the `load` argument; `ReconcileInternal` is the `internal` argument (it
receives the inferred engine kind, mirroring
`ctx.EngineImpl = ddc.InferEngineImpl(runtime.Status, common.AlluxioEngineImpl)`)
and may update the reconciler state.  On a load error: if
`IgnoreNotFound` maps it to nil the function returns
`(ctrl.Result{}, nil)`; otherwise it returns
`RequeueIfError(wrap(err))`. -/
def Reconcile
    (internal : RuntimeObject → String → ReconcilerState → ReconcilerState × CtrlResult × Option LoadErr)
    (load : Except LoadErr RuntimeObject)
    (s : ReconcilerState) : ReconcilerState × CtrlResult × Option LoadErr :=
  match load with
  | .error err =>
    match IgnoreNotFound err with
    | none => (s, emptyResult, none)
    | some _ => (s, RequeueIfError (wrapErr "Unable to get ddc runtime" err))
  | .ok runtime =>
    internal runtime (InferEngineImpl runtime.statusEngineImpl AlluxioEngineImpl) s

/-! ## Duration parsing

`handle` (alluxio.go, lines 159–169) parses the two workqueue backoff
flags with Go's `time.ParseDuration`.  The parser is external standard
library code, embedded here from its documented grammar: an optional
sign, then either the single string "0" or one or more components
`<digits>[.<digits>]<unit>` with units ns/us/µs/μs/ms/s/m/h.  The
result is in nanoseconds.  Go's int64 overflow check and the float64
rounding of fractional components are not modelled; no theorem below
evaluates the parser on an input where they matter. -/

/-- Value of a decimal digit string as an integer (digits already
validated by the caller). -/
def digitsToInt (ds : List Char) : Int :=
  ds.foldl (fun acc c => acc * 10 + (Int.ofNat (c.toNat - 48))) 0

/-- Nanoseconds per unit, from Go's `unitMap` in `time/format.go`. -/
def unitNanos : String → Option Int
  | "ns" => some 1
  | "us" => some 1000
  | "µs" => some 1000
  | "μs" => some 1000
  | "ms" => some 1000000
  | "s" => some 1000000000
  | "m" => some 60000000000
  | "h" => some 3600000000000
  | _ => none

/-- One pass of `time.ParseDuration`'s component loop: consume
`<digits>[.<digits>]<unit>` repeatedly, accumulating nanoseconds.  The
fuel argument (instantiated with the input length plus one) only makes
the recursion structural; each loop iteration consumes at least the
unit character. -/
def parseDurComponents : Nat → List Char → Int → Option Int
  | 0, _, _ => none
  | _ + 1, [], acc => some acc
  | fuel + 1, cs, acc =>
    let intPart := cs.takeWhile (·.isDigit)
    let rest1 := cs.dropWhile (·.isDigit)
    let fracPart : List Char := match rest1 with
      | '.' :: r => r.takeWhile (·.isDigit)
      | _ => []
    let rest2 : List Char := match rest1 with
      | '.' :: r => r.dropWhile (·.isDigit)
      | _ => rest1
    if intPart.isEmpty ∧ fracPart.isEmpty then none
    else
      let unitChars := rest2.takeWhile (fun c => ¬c.isDigit ∧ c ≠ '.')
      let rest3 := rest2.dropWhile (fun c => ¬c.isDigit ∧ c ≠ '.')
      match unitNanos (String.mk unitChars) with
      | none => none
      | some u =>
        let v := digitsToInt intPart * u
          + digitsToInt fracPart * u / (10 ^ fracPart.length)
        parseDurComponents fuel rest3 (acc + v)

/-- Go `time.ParseDuration`, embedded from its documented grammar (see
the section comment): returns the duration in nanoseconds, or `none`
on a malformed input. -/
def parseDuration (s : String) : Option Int :=
  match s.data with
  | [] => none
  | c :: rest =>
    let neg := c = '-'
    let cs := if c = '-' ∨ c = '+' then rest else c :: rest
    if cs = ['0'] then some 0
    else if cs.isEmpty then none
    else (parseDurComponents (cs.length + 1) cs 0).map
      (fun v => if neg then -v else v)

/-! ## Port range parsing

`handle` (alluxio.go, lines 185–189) parses the `runtime-node-port-range`
flag with `k8s.io/apimachinery/pkg/util/net.ParsePortRange`, external
library code embedded here from its documented behaviour: the trimmed
value is empty (empty range), a single port `<port>`, `<min>-<max>`, or
`<min>+<offset>`; a value containing both a hyphen and a plus sign is
rejected, ports above 65535 and inverted ranges are rejected. -/

structure PortRange where
  base : Int
  size : Int
  deriving DecidableEq, Repr

/-- Go `strconv.Atoi`: optional sign followed by one or more digits
(the int64 overflow check is not modelled). -/
def atoiChars (cs : List Char) : Option Int :=
  let core : List Char → Option Int := fun ds =>
    if ds.isEmpty ∨ ¬ds.all (·.isDigit) then none else some (digitsToInt ds)
  match cs with
  | '-' :: ds => (core ds).map (- ·)
  | '+' :: ds => core ds
  | ds => core ds

/-- `strings.TrimSpace`: drop leading and trailing whitespace. -/
def trimChars (cs : List Char) : List Char :=
  ((cs.dropWhile (·.isWhitespace)).reverse.dropWhile (·.isWhitespace)).reverse

/-- Split a character list at the first occurrence of `c`
(`strings.Index` plus slicing), or `none` when `c` does not occur. -/
def splitAtFirst (c : Char) : List Char → Option (List Char × List Char)
  | [] => none
  | x :: xs =>
    if x = c then some ([], xs)
    else (splitAtFirst c xs).map (fun p => (x :: p.1, p.2))

/-- Bounds checks shared by the three notations of `ParsePortRange`:
ports above 65535 and inverted ranges are rejected, otherwise the
range is `[low, high]` stored as base and size. -/
def mkPortRange (low high : Int) : Option PortRange :=
  if low > 65535 ∨ high > 65535 then none
  else if high < low then none
  else some ⟨low, high - low + 1⟩

/-- `net.ParsePortRange` (external k8s apimachinery library), embedded
from its documented behaviour (see the section comment). -/
def ParsePortRange (value : String) : Option PortRange :=
  let cs := trimChars value.data
  if cs = [] then some ⟨0, 0⟩
  else
    match cs.contains '-', cs.contains '+' with
    | false, false =>
      match atoiChars cs with
      | none => none
      | some port => mkPortRange port port
    | true, false =>
      match splitAtFirst '-' cs with
      | none => none
      | some (pre, post) =>
        match atoiChars pre, atoiChars post with
        | some low, some high => mkPortRange low high
        | _, _ => none
    | false, true =>
      match splitAtFirst '+' cs with
      | none => none
      | some (pre, post) =>
        match atoiChars pre, atoiChars post with
        | some low, some offset => mkPortRange low (low + offset)
        | _, _ => none
    | true, true => none

/-! ## The alluxioruntime controller bootstrap
(`src/cmd/alluxio/app/alluxio.go`.) -/

/-- The flags of `alluxioCmd` that feed the controller options, the
rate limiter and the port allocator, with no processing between flag
parsing and use; the remaining flags (logging, metrics, leader
election, …) do not appear in any claim. -/
structure AlluxioFlags where
  portRange : String
  maxConcurrentReconciles : Int
  workqueueDefaultSyncBackoff : String
  workqueueMaxSyncBackoff : String
  workqueueQPS : Int
  workqueueBurst : Int
  deriving DecidableEq, Repr

/-- The flag defaults registered in `init` (alluxio.go, lines
100–122): `runtime-node-port-range` "20000-25000", `runtime-workers` 3,
`workqueue-default-sync-backoff` "5ms", `workqueue-max-sync-backoff`
"1000s", `workqueue-qps` 10, `workqueue-burst` 100. -/
def defaultAlluxioFlags : AlluxioFlags :=
  { portRange := "20000-25000"
    maxConcurrentReconciles := 3
    workqueueDefaultSyncBackoff := "5ms"
    workqueueMaxSyncBackoff := "1000s"
    workqueueQPS := 10
    workqueueBurst := 100 }

/-- The arguments `handle` passes to
`controllers.NewFluidControllerRateLimiter` (alluxio.go, line 173).
The constructor's body is absent from `src/`; for the configuration
claim the limiter is its configuration (its backoff behaviour is
modelled separately from the spec below). -/
structure FluidRateLimiter where
  baseDelay : Int
  maxDelay : Int
  qps : Int
  burst : Int
  deriving DecidableEq, Repr

def NewFluidControllerRateLimiter (baseDelay maxDelay qps burst : Int) :
    FluidRateLimiter :=
  ⟨baseDelay, maxDelay, qps, burst⟩

/-- `controller.Options` as built in `handle` (alluxio.go, lines
171–174). -/
structure ControllerOptions where
  maxConcurrentReconciles : Int
  rateLimiter : FluidRateLimiter
  deriving DecidableEq, Repr

/-- Observable milestones of `handle`, in program order. -/
inductive HandleEvent where
  | managerCreated
  | optionsBuilt (opts : ControllerOptions)
  | reconcilerRegistered
  | portAllocatorSetup (base size : Int)
  | managerStarted
  | exitProcess (code : Nat)
  deriving DecidableEq, Repr

/-- Success or failure of the external calls `handle` makes whose
outcome is not determined by the flags (manager creation, reconciler
registration, allocator setup against the cluster, manager run). -/
structure ExternalOutcomes where
  managerOk : Bool
  reconcilerSetupOk : Bool
  allocatorSetupOk : Bool
  startOk : Bool
  deriving DecidableEq, Repr

/-- The event trace of `handle` (alluxio.go, lines 125–204): create
the manager (exit 1 on failure), parse the two workqueue backoff flags
(exit 1 on failure), build the controller options with the parsed
values and the flag values unchanged, register the runtime reconciler
(exit 1 on failure), parse the port range (exit 1 on failure), set up
the port allocator (exit 1 on failure), start the manager (exit 1 on a
run error). -/
def handleEvents (ext : ExternalOutcomes) (flags : AlluxioFlags) :
    List HandleEvent :=
  if ext.managerOk = true then
    .managerCreated ::
    match parseDuration flags.workqueueDefaultSyncBackoff with
    | none => [.exitProcess 1]
    | some defaultSyncBackoff =>
      match parseDuration flags.workqueueMaxSyncBackoff with
      | none => [.exitProcess 1]
      | some maxSyncBackoff =>
        .optionsBuilt
          { maxConcurrentReconciles := flags.maxConcurrentReconciles
            rateLimiter := NewFluidControllerRateLimiter defaultSyncBackoff
              maxSyncBackoff flags.workqueueQPS flags.workqueueBurst } ::
        if ext.reconcilerSetupOk = true then
          .reconcilerRegistered ::
          match ParsePortRange flags.portRange with
          | none => [.exitProcess 1]
          | some pr =>
            if ext.allocatorSetupOk = true then
              .portAllocatorSetup pr.base pr.size ::
              .managerStarted ::
              (if ext.startOk = true then [] else [.exitProcess 1])
            else [.exitProcess 1]
        else [.exitProcess 1]
  else [.exitProcess 1]

/-! ## Port allocator

`portallocator.SetupRuntimePortAllocator` is called from `handle`
(alluxio.go, line 192) but the `portallocator` package is absent from
`src/`; the allocator is modelled from the spec (§4.4): a table from
port to holding identity over a configured range, `allocate` returning
`count` distinct free ports or failing with `ExhaustedRange`,
idempotent `release`, and initialization that pre-marks the ports
recorded in existing runtime resources' status plus the engine
variant's reserved ports. -/

abbrev Port := Nat

/-- Modelled from the spec: the port allocation table — "a mapping
from port number (within a configured inclusive range) to the Resource
Identity currently holding it".  An entry with holder `none` is a
reserved port (from the `reservedPorts` hook): excluded from
allocation and not owned by any identity, so no `release` removes
it. -/
structure PortAllocator where
  base : Nat
  size : Nat
  table : List (Port × Option Identity)
  deriving DecidableEq, Repr

/-- The configured range: `size` ports starting at `base`. -/
def rangePorts (a : PortAllocator) : List Port :=
  (List.range a.size).map (a.base + ·)

/-- Ports currently marked as taken (held or reserved). -/
def takenPorts (a : PortAllocator) : List Port :=
  a.table.map (·.1)

/-- Ports of the range that are free for allocation. -/
def freePorts (a : PortAllocator) : List Port :=
  (rangePorts a).filter (fun p => ¬ p ∈ takenPorts a)

inductive AllocErr where
  | exhaustedRange
  deriving DecidableEq, Repr

/-- Modelled from the spec: `allocate(identity, count)` — "returns
`count` distinct free ports from the configured range, or fails with
`ExhaustedRange` if fewer than `count` remain".  The deterministic
(bitmap/sequential) policy is modelled: the lowest free ports are
taken; the random-probe policy differs only in which free ports are
picked. -/
def allocate (a : PortAllocator) (id : Identity) (count : Nat) :
    Except AllocErr (List Port × PortAllocator) :=
  let free := freePorts a
  if free.length < count then .error .exhaustedRange
  else .ok (free.take count,
    { a with table := a.table ++ (free.take count).map (fun p => (p, some id)) })

/-- Modelled from the spec: `release(identity)` — "frees all ports
currently held by `identity`; idempotent". -/
def release (a : PortAllocator) (id : Identity) : PortAllocator :=
  { a with table := a.table.filter (fun e => ¬ e.2 = some id) }

/-- The ports currently held by `id`. -/
def heldBy (a : PortAllocator) (id : Identity) : List Port :=
  (a.table.filter (fun e => e.2 = some id)).map (·.1)

/-- A fresh allocator over `size` ports starting at `base`, with no
port taken. -/
def emptyAllocator (base size : Nat) : PortAllocator :=
  ⟨base, size, []⟩

/-- Modelled from the spec: allocator initialization recovery —
`SetupRuntimePortAllocator` lists the existing runtime resources (each
with the ports already recorded in its persisted status) and merges
the engine variant's `reservedPorts` hook into the taken set, before
any allocation is served. -/
def initAllocator (base size : Nat)
    (resources : List (Identity × List Port)) (reserved : List Port) :
    PortAllocator :=
  ⟨base, size,
    (resources.map (fun r => r.2.map (fun p => (p, some r.1)))).flatten
      ++ reserved.map (fun p => (p, (none : Option Identity)))⟩

/-- A client-visible allocator call. -/
inductive PAOp where
  | alloc (id : Identity) (count : Nat)
  | rel (id : Identity)
  deriving DecidableEq, Repr

/-- Apply one call to the allocator state; a failed `allocate`
(ExhaustedRange) leaves the state unchanged. -/
def applyOp (a : PortAllocator) : PAOp → PortAllocator
  | .alloc id count =>
    match allocate a id count with
    | .ok r => r.2
    | .error _ => a
  | .rel id => release a id

/-- Run a sequence of allocator calls. -/
def runOps (a : PortAllocator) (ops : List PAOp) : PortAllocator :=
  ops.foldl applyOp a

/-- Allocator well-formedness: no port appears twice in the table —
each port has at most one holder. -/
def PAWF (a : PortAllocator) : Prop :=
  (takenPorts a).Nodup

/-! ## Engine registry

The alluxio `RuntimeReconciler` declares the registry — the `engines`
map guarded by `mutex` (`src/unnamed/part_000`, lines 89–108) — but the
resolve operation (`GetOrCreateEngine`) is absent from `src/`; it is
modelled from the spec (§4.1): "returns the existing Engine for
`identity` if present; otherwise constructs a new Engine … and inserts
it. Must be safe under arbitrary concurrent calls for *different*
identities (true parallelism) while serializing calls for the *same*
identity (construct-once guarantee …)".  Concurrency is modelled as an
interleaved labelled transition system: a thread resolving an identity
either returns the published engine (`hit`), or claims the absent slot
(`claim`), constructs, and publishes the finished engine (`publish`);
a resolve step reads and writes only the registry entry of its own
identity and the thread's own state. -/

/-- An engine instance; its construction is deterministic in the
identity, so "exactly one instance" is expressible as equality. -/
structure Engine where
  forId : Identity
  deriving DecidableEq, Repr

def newEngine (id : Identity) : Engine := ⟨id⟩

/-- The registry entry for one identity: no engine yet, an engine
under construction by thread `t` (not yet visible to callers), or a
fully constructed published engine. -/
inductive RegEntry where
  | absent
  | constructing (t : Nat)
  | present (e : Engine)
  deriving DecidableEq, Repr

/-- One resolving thread: idle, wanting to resolve `id`, constructing
the engine for `id`, or finished holding the engine it obtained. -/
inductive ThreadState where
  | idle
  | want (id : Identity)
  | building (id : Identity)
  | done (id : Identity) (e : Engine)
  deriving DecidableEq, Repr

/-- Global state: the registry map and every thread's state. -/
structure RegState where
  reg : Identity → RegEntry
  thr : Nat → ThreadState

def updateReg (f : Identity → RegEntry) (id : Identity) (v : RegEntry) :
    Identity → RegEntry :=
  fun x => if x = id then v else f x

def updateThr (f : Nat → ThreadState) (t : Nat) (v : ThreadState) :
    Nat → ThreadState :=
  fun x => if x = t then v else f x

/-- Step labels: which thread moved, on which identity. -/
inductive RegLabel where
  | hit (t : Nat) (id : Identity)
  | claim (t : Nat) (id : Identity)
  | publish (t : Nat) (id : Identity)
  deriving DecidableEq, Repr

def labelThread : RegLabel → Nat
  | .hit t _ => t
  | .claim t _ => t
  | .publish t _ => t

def labelId : RegLabel → Identity
  | .hit _ id => id
  | .claim _ id => id
  | .publish _ id => id

/-- Modelled from the spec: one interleaved step of `resolve`.
`hit`: the entry is published, the caller takes it (lock held only for
the lookup).  `claim`: the entry is absent, the caller claims it and
starts constructing (serializing same-identity callers).  `publish`:
the claiming thread finishes construction and publishes the engine. -/
inductive RegStep : RegState → RegLabel → RegState → Prop where
  | hit {s : RegState} {t : Nat} {id : Identity} {e : Engine} :
      s.thr t = .want id → s.reg id = .present e →
      RegStep s (.hit t id) ⟨s.reg, updateThr s.thr t (.done id e)⟩
  | claim {s : RegState} {t : Nat} {id : Identity} :
      s.thr t = .want id → s.reg id = .absent →
      RegStep s (.claim t id)
        ⟨updateReg s.reg id (.constructing t),
         updateThr s.thr t (.building id)⟩
  | publish {s : RegState} {t : Nat} {id : Identity} :
      s.thr t = .building id → s.reg id = .constructing t →
      RegStep s (.publish t id)
        ⟨updateReg s.reg id (.present (newEngine id)),
         updateThr s.thr t (.done id (newEngine id))⟩

/-- A run: a sequence of steps with its trace of labels. -/
inductive RegRun : RegState → List RegLabel → RegState → Prop where
  | nil (s : RegState) : RegRun s [] s
  | cons {s : RegState} {l : RegLabel} {s2 : RegState} {ls : List RegLabel}
      {s3 : RegState} :
      RegStep s l s2 → RegRun s2 ls s3 → RegRun s (l :: ls) s3

/-- An initial state: nothing registered, every thread idle or about
to resolve some identity. -/
def RegInit (s : RegState) : Prop :=
  (∀ id, s.reg id = .absent)
  ∧ (∀ t, s.thr t = .idle ∨ ∃ id, s.thr t = .want id)

/-- Thread `t` is in the middle of resolving `id`. -/
def workingOn (s : RegState) (t : Nat) (id : Identity) : Prop :=
  s.thr t = .want id ∨ s.thr t = .building id

/-- Thread `t` has an enabled step (it is not blocked). -/
def Enabled (s : RegState) (t : Nat) : Prop :=
  ∃ l s2, RegStep s l s2 ∧ labelThread l = t

/-- Does this label publish a constructed engine for `id`? -/
def isPublishFor (l : RegLabel) (id : Identity) : Bool :=
  match l with
  | .publish _ i => i = id
  | _ => false

/-- Number of construction completions for `id` in a trace. -/
def countPublish (tr : List RegLabel) (id : Identity) : Nat :=
  (tr.filter (fun l => isPublishFor l id)).length

/-- 1 when the registry holds a published engine for `id`, else 0. -/
def presentCount (s : RegState) (id : Identity) : Nat :=
  match s.reg id with
  | .present _ => 1
  | _ => 0

/-- Registry coherence: published engines are the constructed engine
of their identity, finished callers hold exactly the published engine
(never a partially-constructed one), and a building thread owns its
claimed entry. -/
def RegGood (s : RegState) : Prop :=
  (∀ id e, s.reg id = .present e → e = newEngine id)
  ∧ (∀ t id e, s.thr t = .done id e →
      s.reg id = .present (newEngine id) ∧ e = newEngine id)
  ∧ (∀ t id, s.thr t = .building id → s.reg id = .constructing t)

/-! ## Backoff behaviour of the rate limiter

`controllers.NewFluidControllerRateLimiter` (called at alluxio.go,
line 173) is absent from `src/`; its per-item backoff behaviour is
modelled from the spec: "exponential backoff with floor/ceiling",
"reset to minimum on a successful reconciliation; invariant: delay is
monotonically non-decreasing across consecutive failures up to the
ceiling".  Delays are in nanoseconds (`time.Duration`). -/

/-- Per-identity backoff state: the count of consecutive transient
failures observed since the last success. -/
structure BackoffState where
  failures : Nat
  deriving DecidableEq, Repr

/-- Modelled from the spec: the rate limiter's delay computation for
one more failure of an identity — exponential in the failure count
with floor `baseDelay` and ceiling `maxDelay` — returning the delay
and the bumped state. -/
def backoffWhen (baseDelay maxDelay : Int) (s : BackoffState) :
    Int × BackoffState :=
  (min (baseDelay * 2 ^ s.failures) maxDelay, ⟨s.failures + 1⟩)

/-- Modelled from the spec: a successful reconciliation resets the
identity's backoff state ("reset to minimum on a successful
reconciliation"). -/
def backoffForget (_ : BackoffState) : BackoffState :=
  ⟨0⟩

/-- The delays handed out across `n` consecutive failures starting
from state `s`, obtained by iterating `backoffWhen`. -/
def failureDelays (baseDelay maxDelay : Int) : BackoffState → Nat → List Int
  | _, 0 => []
  | s, n + 1 =>
    let step := backoffWhen baseDelay maxDelay s
    step.1 :: failureDelays baseDelay maxDelay step.2 n

end Fluid

/-! ## Theorems -/

namespace Fluid

/-- **C5.** `InferEngineImpl` returns the kind recorded in the
resource's status whenever one is recorded — the recorded kind is
authoritative and overrides the default — and returns the configured
default exactly when the status records none. -/
theorem inferEngineImpl_recorded_authoritative
    (recorded : Option String) (defaultImpl : String) :
    (∀ kind, recorded = some kind → InferEngineImpl recorded defaultImpl = kind)
    ∧ (recorded = none → InferEngineImpl recorded defaultImpl = defaultImpl) := by
  constructor
  · intro kind h
    subst h
    rfl
  · intro h
    subst h
    rfl

/-- Witness for C5: a recorded kind "goosefs" overrides the default
"alluxio"; an absent recorded kind falls back to the default. -/
theorem inferEngineImpl_recorded_authoritative_witness :
    InferEngineImpl (some "goosefs") "alluxio" = "goosefs"
    ∧ InferEngineImpl none "alluxio" = "alluxio" :=
  ⟨(inferEngineImpl_recorded_authoritative (some "goosefs") "alluxio").1 "goosefs" rfl,
   (inferEngineImpl_recorded_authoritative none "alluxio").2 rfl⟩

/-- **C8.** `GetConfigWithContext` returns a config whose QPS is 20.0
exactly when the loaded QPS is 0.0 and whose Burst is 30 exactly when
the loaded Burst is 0; nonzero loaded values pass through unchanged,
and a load error is propagated with no config returned. -/
theorem getConfigWithContext_defaults_qps_burst :
    (∀ e : String, GetConfigWithContext (.error e) = .error e)
    ∧ (∀ cfg : RestConfig, ∃ out : RestConfig,
        GetConfigWithContext (.ok cfg) = .ok out
        ∧ (cfg.QPS = 0 → out.QPS = 20)
        ∧ (cfg.QPS ≠ 0 → out.QPS = cfg.QPS)
        ∧ (cfg.Burst = 0 → out.Burst = 30)
        ∧ (cfg.Burst ≠ 0 → out.Burst = cfg.Burst)) := by
  constructor
  · intro e
    rfl
  · intro cfg
    by_cases hq : cfg.QPS = 0 <;> by_cases hb : cfg.Burst = 0 <;>
      refine ⟨_, rfl, ?_, ?_, ?_, ?_⟩ <;>
      simp [GetConfigWithContext, hq, hb]

/-- Witness for C8: a loaded config with QPS 0 and Burst 7 comes back
with QPS 20 and Burst 7; a load error comes back unchanged. -/
theorem getConfigWithContext_defaults_qps_burst_witness :
    GetConfigWithContext (.error "boom") = .error "boom"
    ∧ GetConfigWithContext (.ok ⟨0, 7⟩) = .ok ⟨20, 7⟩ := by
  refine ⟨getConfigWithContext_defaults_qps_burst.1 "boom", ?_⟩
  obtain ⟨out, hout, hq, _, _, hb⟩ :=
    getConfigWithContext_defaults_qps_burst.2 ⟨0, 7⟩
  have hq0 := hq rfl
  have hb7 := hb (by norm_num)
  rw [hout]
  congr 1
  cases out
  simp_all

/-- **C4.** When loading the runtime fails with NotFound, `Reconcile`
returns an empty result and a nil error (treated as already-Gone, no
requeue); for any other load error it returns the error so the request
is requeued with backoff. -/
theorem reconcile_load_error_classified
    (internal : RuntimeObject → String → ReconcilerState → ReconcilerState × CtrlResult × Option LoadErr)
    (s : ReconcilerState) :
    (Reconcile internal (.error .notFound) s).2 = (emptyResult, none)
    ∧ ∀ msg, ∃ err,
        (Reconcile internal (.error (.other msg)) s).2 = (emptyResult, some err) := by
  exact ⟨rfl, fun msg => ⟨_, rfl⟩⟩

/-- **C9.** On the NotFound path `Reconcile` returns before touching
the engine registry: the reconciler state (the `engines` map) is
exactly what it was before the call, whatever `ReconcileInternal` would
have done. -/
theorem reconcile_notFound_frame
    (internal : RuntimeObject → String → ReconcilerState → ReconcilerState × CtrlResult × Option LoadErr)
    (s : ReconcilerState) :
    (Reconcile internal (.error .notFound) s).1 = s :=
  rfl

/-- **C7.** The controller's work scheduler is configured with exactly
the four knobs the spec names — maximum concurrent reconciliations
(flag `runtime-workers`, default 3), base backoff (default 5ms),
ceiling backoff (default 1000s), and a token-bucket rate limit of
steady QPS (default 10) plus burst (default 100) — and the parsed flag
values are passed unchanged into the controller options and the rate
limiter. -/
theorem alluxio_controller_options_knobs :
    (defaultAlluxioFlags.maxConcurrentReconciles = 3
      ∧ defaultAlluxioFlags.workqueueDefaultSyncBackoff = "5ms"
      ∧ parseDuration "5ms" = some 5000000
      ∧ defaultAlluxioFlags.workqueueMaxSyncBackoff = "1000s"
      ∧ parseDuration "1000s" = some 1000000000000
      ∧ defaultAlluxioFlags.workqueueQPS = 10
      ∧ defaultAlluxioFlags.workqueueBurst = 100)
    ∧ ∀ (ext : ExternalOutcomes) (flags : AlluxioFlags) (dsb msb : Int),
        ext.managerOk = true →
        parseDuration flags.workqueueDefaultSyncBackoff = some dsb →
        parseDuration flags.workqueueMaxSyncBackoff = some msb →
        HandleEvent.optionsBuilt
          { maxConcurrentReconciles := flags.maxConcurrentReconciles
            rateLimiter := { baseDelay := dsb, maxDelay := msb,
                             qps := flags.workqueueQPS,
                             burst := flags.workqueueBurst } }
          ∈ handleEvents ext flags := by
  refine ⟨⟨rfl, rfl, by decide, rfl, by decide, rfl, rfl⟩, ?_⟩
  intro ext flags dsb msb hm hd hms
  simp only [handleEvents, hm, if_true, hd, hms, NewFluidControllerRateLimiter]
  exact List.mem_cons_of_mem _ (List.mem_cons_self _ _)

/-- Witness for C7: with the default flag values and all external
calls succeeding, the options built carry workers 3, base backoff
5ms (5000000 ns), ceiling 1000s (10^12 ns), QPS 10 and burst 100. -/
theorem alluxio_controller_options_knobs_witness :
    HandleEvent.optionsBuilt
      { maxConcurrentReconciles := 3
        rateLimiter := { baseDelay := 5000000, maxDelay := 1000000000000,
                         qps := 10, burst := 100 } }
      ∈ handleEvents ⟨true, true, true, true⟩ defaultAlluxioFlags :=
  alluxio_controller_options_knobs.2 ⟨true, true, true, true⟩
    defaultAlluxioFlags 5000000 1000000000000 rfl (by decide) (by decide)

/-- **C10.** If `workqueue-default-sync-backoff` or
`workqueue-max-sync-backoff` does not parse as a duration, or
`runtime-node-port-range` does not parse as a port range, `handle`
exits with status 1 before the manager is started: the manager never
runs (so no reconciler runs) and the port allocator is never set
up. -/
theorem alluxio_handle_bad_flags_exit_before_start
    (ext : ExternalOutcomes) (flags : AlluxioFlags)
    (h : parseDuration flags.workqueueDefaultSyncBackoff = none
      ∨ parseDuration flags.workqueueMaxSyncBackoff = none
      ∨ ParsePortRange flags.portRange = none) :
    HandleEvent.exitProcess 1 ∈ handleEvents ext flags
    ∧ HandleEvent.managerStarted ∉ handleEvents ext flags
    ∧ ∀ b n, HandleEvent.portAllocatorSetup b n ∉ handleEvents ext flags := by
  by_cases hm : ext.managerOk = true
  · cases hd : parseDuration flags.workqueueDefaultSyncBackoff with
    | none => simp [handleEvents, hm, hd]
    | some dsb =>
      cases hms : parseDuration flags.workqueueMaxSyncBackoff with
      | none => simp [handleEvents, hm, hd, hms]
      | some msb =>
        cases hpr : ParsePortRange flags.portRange with
        | none =>
          by_cases hr : ext.reconcilerSetupOk = true <;>
            simp [handleEvents, hm, hd, hms, hpr, hr]
        | some pr => simp_all
  · simp [handleEvents, hm]

/-- Witness for C10: with an unparsable base backoff "notaduration",
`handle` exits 1 and neither starts the manager nor sets up the port
allocator. -/
theorem alluxio_handle_bad_flags_exit_before_start_witness :
    HandleEvent.exitProcess 1 ∈
        handleEvents ⟨true, true, true, true⟩
          { defaultAlluxioFlags with workqueueDefaultSyncBackoff := "notaduration" }
      ∧ HandleEvent.managerStarted ∉
        handleEvents ⟨true, true, true, true⟩
          { defaultAlluxioFlags with workqueueDefaultSyncBackoff := "notaduration" }
      ∧ ∀ b n, HandleEvent.portAllocatorSetup b n ∉
        handleEvents ⟨true, true, true, true⟩
          { defaultAlluxioFlags with workqueueDefaultSyncBackoff := "notaduration" } :=
  alluxio_handle_bad_flags_exit_before_start ⟨true, true, true, true⟩
    { defaultAlluxioFlags with workqueueDefaultSyncBackoff := "notaduration" }
    (Or.inl (by decide))

/-! ### Port allocator lemmas -/

/-- Helper: there are at most `size` free ports. -/
theorem freePorts_length_le (a : PortAllocator) :
    (freePorts a).length ≤ a.size := by
  have h := List.length_filter_le
    (fun p => decide (¬ p ∈ takenPorts a)) (rangePorts a)
  simpa [freePorts, rangePorts] using h

/-- Helper: a free port is not taken. -/
theorem mem_freePorts_not_taken {a : PortAllocator} {p : Port}
    (h : p ∈ freePorts a) : p ∉ takenPorts a := by
  simp only [freePorts, List.mem_filter, decide_not, Bool.not_eq_eq_eq_not,
    Bool.not_true, decide_eq_false_iff_not] at h
  exact h.2

/-- Helper: the free ports are pairwise distinct. -/
theorem freePorts_nodup (a : PortAllocator) : (freePorts a).Nodup := by
  refine List.Nodup.filter _ ?_
  exact List.Nodup.map (fun x y hxy => Nat.add_left_cancel hxy)
    (List.nodup_range a.size)

/-- Helper: shape of a successful `allocate`: the returned ports are
the first `count` free ports and the new table appends them bound to
`id`. -/
theorem allocate_ok_iff {a : PortAllocator} {id : Identity} {count : Nat}
    {ports : List Port} {a2 : PortAllocator}
    (h : allocate a id count = .ok (ports, a2)) :
    ports = (freePorts a).take count
    ∧ a2 = { a with
        table := a.table ++ ((freePorts a).take count).map (fun p => (p, some id)) } := by
  rw [allocate] at h
  split at h
  · exact absurd h (by simp)
  · simp only [Except.ok.injEq, Prod.mk.injEq] at h
    exact ⟨h.1.symm, h.2.symm⟩

/-- Helper: taken ports after a successful `allocate`. -/
theorem takenPorts_allocate {a : PortAllocator} {id : Identity} {count : Nat}
    {ports : List Port} {a2 : PortAllocator}
    (h : allocate a id count = .ok (ports, a2)) :
    takenPorts a2 = takenPorts a ++ (freePorts a).take count := by
  obtain ⟨-, rfl⟩ := allocate_ok_iff h
  simp [takenPorts, List.map_map, Function.comp_def]

/-- Helper: `applyOp` never changes the configured range. -/
theorem applyOp_size (a : PortAllocator) (op : PAOp) :
    (applyOp a op).size = a.size := by
  cases op with
  | alloc id count =>
    simp only [applyOp]
    cases halloc : allocate a id count with
    | error e => rfl
    | ok r =>
      obtain ⟨ports, a2⟩ := r
      show a2.size = a.size
      obtain ⟨-, rfl⟩ := allocate_ok_iff halloc
      rfl
  | rel id => rfl

/-- Helper: `runOps` never changes the configured range. -/
theorem runOps_size (ops : List PAOp) : ∀ a : PortAllocator,
    (runOps a ops).size = a.size := by
  induction ops with
  | nil => intro a; rfl
  | cons op ops ih =>
    intro a
    have h1 : runOps a (op :: ops) = runOps (applyOp a op) ops := rfl
    rw [h1, ih (applyOp a op), applyOp_size]

/-- Helper: every allocator operation preserves the at-most-one-holder
invariant. -/
theorem PAWF_applyOp {a : PortAllocator} (h : PAWF a) (op : PAOp) :
    PAWF (applyOp a op) := by
  cases op with
  | alloc id count =>
    simp only [applyOp]
    cases halloc : allocate a id count with
    | error e => exact h
    | ok r =>
      obtain ⟨ports, a2⟩ := r
      show PAWF a2
      unfold PAWF
      rw [takenPorts_allocate halloc]
      refine List.Nodup.append h ?_ ?_
      · exact List.Nodup.sublist (List.take_sublist _ _) (freePorts_nodup a)
      · intro x hx hx2
        exact mem_freePorts_not_taken (List.take_subset _ _ hx2) hx
  | rel id =>
    unfold PAWF applyOp release
    refine List.Nodup.sublist ?_ h
    exact List.Sublist.map _ (List.filter_sublist _)

/-- Helper: the invariant holds after any call sequence from a
well-formed state. -/
theorem PAWF_runOps {a : PortAllocator} (h : PAWF a) (ops : List PAOp) :
    PAWF (runOps a ops) := by
  induction ops generalizing a with
  | nil => exact h
  | cons op ops ih => exact ih (PAWF_applyOp h op)

/-- Helper: in a table whose ports are pairwise distinct, a port
determines its holder. -/
theorem holder_unique {l : List (Port × Option Identity)}
    (h : (l.map (·.1)).Nodup) {p : Port} {v w : Option Identity}
    (hv : (p, v) ∈ l) (hw : (p, w) ∈ l) : v = w := by
  induction l with
  | nil => cases hv
  | cons e t ih =>
    obtain ⟨q, u⟩ := e
    rw [List.map_cons, List.nodup_cons] at h
    rcases List.mem_cons.mp hv with h1 | h1 <;>
      rcases List.mem_cons.mp hw with h2 | h2
    · rw [Prod.mk.injEq] at h1 h2
      rw [h1.2, h2.2]
    · cases h1
      exact absurd (List.mem_map_of_mem (·.1) h2) h.1
    · cases h2
      exact absurd (List.mem_map_of_mem (·.1) h1) h.1
    · exact ih h.2 h1 h2

/-- Helper: `heldBy` membership in terms of the table. -/
theorem mem_heldBy {a : PortAllocator} {id : Identity} {p : Port} :
    p ∈ heldBy a id ↔ (p, some id) ∈ a.table := by
  constructor
  · intro h
    simp only [heldBy, List.mem_map, List.mem_filter] at h
    obtain ⟨⟨q, v⟩, ⟨hmem, hv⟩, hq⟩ := h
    simp only [decide_eq_true_eq] at hv
    cases hq
    rw [hv] at hmem
    exact hmem
  · intro h
    simp only [heldBy, List.mem_map, List.mem_filter]
    exact ⟨(p, some id), ⟨h, by simp⟩, rfl⟩

/-- **C1.** For every sequence of allocate/release calls over a range
of size N starting from an empty table, no port is held by two
identities at the same time, and any `allocate` for which fewer than
`count` free ports remain — in particular `count = N+1` — fails with
`ExhaustedRange` rather than returning ports. -/
theorem portAllocator_no_double_hold_and_exhausted
    (base N : Nat) (ops : List PAOp) (id1 id2 : Identity) (hne : id1 ≠ id2)
    (p : Port) (id : Identity) (count : Nat) :
    (p ∈ heldBy (runOps (emptyAllocator base N) ops) id1 →
      p ∉ heldBy (runOps (emptyAllocator base N) ops) id2)
    ∧ ((freePorts (runOps (emptyAllocator base N) ops)).length < count →
      allocate (runOps (emptyAllocator base N) ops) id count
        = .error .exhaustedRange)
    ∧ allocate (runOps (emptyAllocator base N) ops) id (N + 1)
        = .error .exhaustedRange := by
  have hwf : PAWF (runOps (emptyAllocator base N) ops) :=
    PAWF_runOps (by simp [PAWF, emptyAllocator, takenPorts]) ops
  refine ⟨?_, ?_, ?_⟩
  · intro h1 h2
    exact hne (Option.some.inj
      (holder_unique hwf (mem_heldBy.mp h1) (mem_heldBy.mp h2)))
  · intro hc
    simp [allocate, hc]
  · have hlen : (freePorts (runOps (emptyAllocator base N) ops)).length < N + 1 := by
      have h1 := freePorts_length_le (runOps (emptyAllocator base N) ops)
      have h2 := runOps_size ops (emptyAllocator base N)
      have h3 : (emptyAllocator base N).size = N := rfl
      omega
    simp [allocate, hlen]

/-- Witness for C1: over the range {0, 1} (N = 2), after "a" and "b"
allocate one port each, port 0 is held by "a" and therefore not by
"b", and an `allocate` for 3 = N+1 ports fails with
`ExhaustedRange`. -/
theorem portAllocator_no_double_hold_and_exhausted_witness :
    (0 : Port) ∈ heldBy
        (runOps (emptyAllocator 0 2) [PAOp.alloc "a" 1, PAOp.alloc "b" 1]) "a"
    ∧ (0 : Port) ∉ heldBy
        (runOps (emptyAllocator 0 2) [PAOp.alloc "a" 1, PAOp.alloc "b" 1]) "b"
    ∧ allocate (runOps (emptyAllocator 0 2) [PAOp.alloc "a" 1, PAOp.alloc "b" 1])
        "c" 3 = .error .exhaustedRange :=
  ⟨by decide,
   (portAllocator_no_double_hold_and_exhausted 0 2
      [PAOp.alloc "a" 1, PAOp.alloc "b" 1] "a" "b" (by decide) 0 "c" 3).1
     (by decide),
   (portAllocator_no_double_hold_and_exhausted 0 2
      [PAOp.alloc "a" 1, PAOp.alloc "b" 1] "a" "b" (by decide) 0 "c" 3).2.2⟩

/-- Helper for C3: a table entry survives any call that is not a
release of its own holder — `allocate` only appends entries and
`release id` only removes entries held by `id`. -/
theorem table_applyOp_mono {a : PortAllocator} {e : Port × Option Identity}
    (h : e ∈ a.table) (op : PAOp)
    (hop : ∀ id2, op = PAOp.rel id2 → ¬ e.2 = some id2) :
    e ∈ (applyOp a op).table := by
  cases op with
  | alloc id count =>
    simp only [applyOp]
    cases halloc : allocate a id count with
    | error er => exact h
    | ok r =>
      obtain ⟨ports, a2⟩ := r
      show e ∈ a2.table
      obtain ⟨-, rfl⟩ := allocate_ok_iff halloc
      exact List.mem_append_left _ h
  | rel id2 =>
    show e ∈ (release a id2).table
    simp only [release]
    rw [List.mem_filter]
    refine ⟨h, ?_⟩
    simpa using hop id2 rfl

/-- Helper for C3: a table entry survives any call sequence containing
no release of its own holder; in particular a reserved entry (holder
`none`) survives every call sequence. -/
theorem table_runOps_mono {a : PortAllocator} {e : Port × Option Identity}
    (h : e ∈ a.table) (ops : List PAOp)
    (hops : ∀ op ∈ ops, ∀ id2, op = PAOp.rel id2 → ¬ e.2 = some id2) :
    e ∈ (runOps a ops).table := by
  induction ops generalizing a with
  | nil => exact h
  | cons op ops ih =>
    exact ih
      (table_applyOp_mono h op (hops op (List.mem_cons_self op ops)))
      (fun o ho id2 => hops o (List.mem_cons_of_mem op ho) id2)

/-- Helper for C3: ports returned by a successful `allocate` were
free. -/
theorem allocate_ok_ports_free {a : PortAllocator} {id : Identity}
    {count : Nat} {ports : List Port} {a2 : PortAllocator}
    (h : allocate a id count = .ok (ports, a2)) {p : Port}
    (hp : p ∈ ports) : p ∈ freePorts a := by
  obtain ⟨rfl, -⟩ := allocate_ok_iff h
  exact List.take_subset _ _ hp

/-- Helper for C3: the fresh table records each resource's recorded
port under that resource's identity. -/
theorem mem_table_init_recorded (base size : Nat)
    (resources : List (Identity × List Port)) (reserved : List Port)
    {r : Identity × List Port} (hr : r ∈ resources) {p : Port}
    (hpr : p ∈ r.2) :
    (p, some r.1) ∈ (initAllocator base size resources reserved).table := by
  have h1 : (p, some r.1) ∈
      (resources.map (fun s => s.2.map (fun q => (q, some s.1)))).flatten := by
    rw [List.mem_flatten]
    exact ⟨r.2.map (fun q => (q, some r.1)),
      List.mem_map_of_mem _ hr, List.mem_map_of_mem _ hpr⟩
  exact List.mem_append_left _ h1

/-- Helper for C3: the fresh table records each reserved-hook port
with no holder. -/
theorem mem_table_init_reserved (base size : Nat)
    (resources : List (Identity × List Port)) (reserved : List Port)
    {p : Port} (hp : p ∈ reserved) :
    (p, (none : Option Identity))
      ∈ (initAllocator base size resources reserved).table :=
  List.mem_append_right _ (List.mem_map_of_mem _ hp)

/-- Helper for C3: the freshly initialized table pre-marks every port
recorded in a resource's status and every reserved port. -/
theorem mem_takenPorts_init (base size : Nat)
    (resources : List (Identity × List Port)) (reserved : List Port)
    (p : Port) (hp : (∃ r ∈ resources, p ∈ r.2) ∨ p ∈ reserved) :
    p ∈ takenPorts (initAllocator base size resources reserved) := by
  rcases hp with ⟨r, hr, hpr⟩ | hres
  · exact List.mem_map_of_mem (·.1)
      (mem_table_init_recorded base size resources reserved hr hpr)
  · exact List.mem_map_of_mem (·.1)
      (mem_table_init_reserved base size resources reserved hres)

/-- **C3.** A freshly initialized Port Allocator has pre-marked every
port recorded in existing runtime resources' status and every
reserved-hook port as taken, and consequently never returns such a
port from `allocate` until it is explicitly released: a port recorded
by resource `r` is never returned across any call sequence that does
not release `r`'s identity (releases of other identities are allowed),
and a reserved port is never returned across any call sequence at all
(no identity holds it, so no release frees it). -/
theorem portAllocator_init_recovery
    (base size : Nat) (resources : List (Identity × List Port))
    (reserved : List Port) (p : Port) (ops : List PAOp)
    (id : Identity) (count : Nat) (ports : List Port) (a2 : PortAllocator) :
    ((∃ r ∈ resources, p ∈ r.2) ∨ p ∈ reserved →
      p ∈ takenPorts (initAllocator base size resources reserved))
    ∧ (∀ r ∈ resources, p ∈ r.2 →
        (∀ op ∈ ops, op ≠ PAOp.rel r.1) →
        allocate (runOps (initAllocator base size resources reserved) ops)
          id count = .ok (ports, a2) → p ∉ ports)
    ∧ (p ∈ reserved →
        allocate (runOps (initAllocator base size resources reserved) ops)
          id count = .ok (ports, a2) → p ∉ ports) := by
  refine ⟨mem_takenPorts_init base size resources reserved p, ?_, ?_⟩
  · intro r hr hpr hops halloc hmem
    have hside : ∀ op ∈ ops, ∀ id2, op = PAOp.rel id2
        → ¬ ((p, some r.1) : Port × Option Identity).2 = some id2 := by
      intro op hop id2 he hc
      exact hops op hop (by rw [he, Option.some.inj hc])
    have hent := table_runOps_mono
      (mem_table_init_recorded base size resources reserved hr hpr) ops hside
    exact mem_freePorts_not_taken (allocate_ok_ports_free halloc hmem)
      (List.mem_map_of_mem (·.1) hent)
  · intro hres halloc hmem
    have hside : ∀ op ∈ ops, ∀ id2, op = PAOp.rel id2
        → ¬ ((p, (none : Option Identity)) : Port × Option Identity).2 = some id2 := by
      intro op hop id2 he hc
      cases hc
    have hent := table_runOps_mono
      (mem_table_init_reserved base size resources reserved hres) ops hside
    exact mem_freePorts_not_taken (allocate_ok_ports_free halloc hmem)
      (List.mem_map_of_mem (·.1) hent)

/-- Witness for C3: over the range {20000, 20001, 20002}, with
resource "r1" recording port 20001 and reserved port 20002, the fresh
allocator has both pre-marked; after a release of a different identity
"other" the first allocation returns {20000} — neither the recorded
port 20001 (whose holder "r1" was not released) nor the reserved port
20002. -/
theorem portAllocator_init_recovery_witness :
    (20001 : Port) ∈ takenPorts (initAllocator 20000 3 [("r1", [20001])] [20002])
    ∧ (20001 : Port) ∉ ([20000] : List Port)
    ∧ (20002 : Port) ∉ ([20000] : List Port) :=
  ⟨(portAllocator_init_recovery 20000 3 [("r1", [20001])] [20002] 20001
      [PAOp.rel "other"] "x" 1 [20000]
      ⟨20000, 3, [(20001, some "r1"), (20002, none), (20000, some "x")]⟩).1
     (Or.inl ⟨("r1", [20001]), by decide, by decide⟩),
   (portAllocator_init_recovery 20000 3 [("r1", [20001])] [20002] 20001
      [PAOp.rel "other"] "x" 1 [20000]
      ⟨20000, 3, [(20001, some "r1"), (20002, none), (20000, some "x")]⟩).2.1
     ("r1", [20001]) (by decide) (by decide) (by decide) (by rfl),
   (portAllocator_init_recovery 20000 3 [("r1", [20001])] [20002] 20002
      [PAOp.rel "other"] "x" 1 [20000]
      ⟨20000, 3, [(20001, some "r1"), (20002, none), (20000, some "x")]⟩).2.2
     (by decide) (by rfl)⟩

/-- Helper for C6: each delay in a run of consecutive failures is at
most the ceiling. -/
theorem failureDelays_le_max (baseDelay maxDelay : Int) :
    ∀ (n : Nat) (s : BackoffState) (d : Int),
      d ∈ failureDelays baseDelay maxDelay s n → d ≤ maxDelay := by
  intro n
  induction n with
  | zero => intro s d hd; simp [failureDelays] at hd
  | succ n ih =>
    intro s d hd
    rw [failureDelays] at hd
    rcases List.mem_cons.mp hd with h | h
    · rw [h]; exact min_le_right _ _
    · exact ih _ d h

/-- Helper for C6: the delays over consecutive failures are
non-decreasing (with a non-negative base). -/
theorem failureDelays_monotone (baseDelay maxDelay : Int)
    (h0 : 0 ≤ baseDelay) :
    ∀ (n : Nat) (s : BackoffState),
      List.Chain' (· ≤ ·) (failureDelays baseDelay maxDelay s n) := by
  intro n
  induction n with
  | zero => intro s; simp [failureDelays]
  | succ n ih =>
    intro s
    rw [failureDelays]
    cases n with
    | zero => simp [failureDelays]
    | succ m =>
      rw [failureDelays, List.chain'_cons]
      constructor
      · simp only [backoffWhen]
        refine min_le_min ?_ le_rfl
        refine mul_le_mul_of_nonneg_left ?_ h0
        exact pow_le_pow_right₀ (by norm_num) (Nat.le_succ s.failures)
      · exact ih _

/-- **C6.** Across any run of consecutive transient failures for one
identity, the retry delays computed by the rate limiter are
monotonically non-decreasing and never exceed the configured ceiling;
after a success resets the state, the next delay is the configured
base (floor). -/
theorem fluid_backoff_monotone_bounded_reset
    (baseDelay maxDelay : Int) (h0 : 0 ≤ baseDelay)
    (hbm : baseDelay ≤ maxDelay) (s : BackoffState) (n : Nat) :
    List.Chain' (· ≤ ·) (failureDelays baseDelay maxDelay s n)
    ∧ (∀ d ∈ failureDelays baseDelay maxDelay s n, d ≤ maxDelay)
    ∧ (backoffWhen baseDelay maxDelay (backoffForget s)).1 = baseDelay := by
  refine ⟨failureDelays_monotone baseDelay maxDelay h0 n s,
    fun d hd => failureDelays_le_max baseDelay maxDelay n s d hd, ?_⟩
  simp [backoffWhen, backoffForget, min_eq_left hbm]

/-- Witness for C6: with the default base 5ms and ceiling 1000s, four
consecutive failures from a fresh state give non-decreasing delays
below the ceiling, and the first delay after a reset is 5ms. -/
theorem fluid_backoff_monotone_bounded_reset_witness :
    List.Chain' (· ≤ ·) (failureDelays 5000000 1000000000000 ⟨0⟩ 4)
    ∧ (∀ d ∈ failureDelays 5000000 1000000000000 ⟨0⟩ 4, d ≤ 1000000000000)
    ∧ (backoffWhen 5000000 1000000000000 (backoffForget ⟨0⟩)).1 = 5000000 :=
  fluid_backoff_monotone_bounded_reset 5000000 1000000000000
    (by norm_num) (by norm_num) ⟨0⟩ 4

/-! ### Engine registry lemmas -/

/-- Helper: a step leaves every other thread's state unchanged. -/
theorem step_thr_frame {s : RegState} {l : RegLabel} {s2 : RegState}
    (h : RegStep s l s2) (t : Nat) (hne : t ≠ labelThread l) :
    s2.thr t = s.thr t := by
  cases h with
  | hit h1 h2 => simp only [labelThread] at hne; simp [updateThr, hne]
  | claim h1 h2 => simp only [labelThread] at hne; simp [updateThr, hne]
  | publish h1 h2 => simp only [labelThread] at hne; simp [updateThr, hne]

/-- Helper: a step leaves every other identity's registry entry
unchanged: resolve steps on distinct identities touch disjoint
state. -/
theorem step_reg_frame {s : RegState} {l : RegLabel} {s2 : RegState}
    (h : RegStep s l s2) (id : Identity) (hne : id ≠ labelId l) :
    s2.reg id = s.reg id := by
  cases h with
  | hit h1 h2 => rfl
  | claim h1 h2 => simp only [labelId] at hne; simp [updateReg, hne]
  | publish h1 h2 => simp only [labelId] at hne; simp [updateReg, hne]

/-- Helper: the stepping thread is resolving the label's identity. -/
theorem step_workingOn {s : RegState} {l : RegLabel} {s2 : RegState}
    (h : RegStep s l s2) : workingOn s (labelThread l) (labelId l) := by
  cases h with
  | hit h1 h2 => exact Or.inl h1
  | claim h1 h2 => exact Or.inl h1
  | publish h1 h2 => exact Or.inr h1

/-- Helper: a thread resolves at most one identity at a time. -/
theorem workingOn_unique {s : RegState} {t : Nat} {A B : Identity}
    (hA : workingOn s t A) (hB : workingOn s t B) : A = B := by
  rcases hA with h1 | h1 <;> rcases hB with h2 | h2 <;> rw [h1] at h2
  · exact ThreadState.want.inj h2
  · simp at h2
  · simp at h2
  · exact ThreadState.building.inj h2

/-- Helper: what an enabled step of a thread resolving `A` can be, in
terms of the thread's state and the entry for `A` only. -/
theorem enabled_components {s : RegState} {t : Nat} (h : Enabled s t)
    {A : Identity} (hw : workingOn s t A) :
    (s.thr t = .want A ∧ s.reg A = .absent)
    ∨ (s.thr t = .want A ∧ ∃ e, s.reg A = .present e)
    ∨ (s.thr t = .building A ∧ s.reg A = .constructing t) := by
  obtain ⟨l, s2, hstep, hlt⟩ := h
  cases hstep with
  | hit h1 h2 =>
    simp only [labelThread] at hlt
    subst hlt
    have hid : _ = A := workingOn_unique (Or.inl h1) hw
    subst hid
    exact Or.inr (Or.inl ⟨h1, _, h2⟩)
  | claim h1 h2 =>
    simp only [labelThread] at hlt
    subst hlt
    have hid : _ = A := workingOn_unique (Or.inl h1) hw
    subst hid
    exact Or.inl ⟨h1, h2⟩
  | publish h1 h2 =>
    simp only [labelThread] at hlt
    subst hlt
    have hid : _ = A := workingOn_unique (Or.inr h1) hw
    subst hid
    exact Or.inr (Or.inr ⟨h1, h2⟩)

/-- Helper: rebuild an enabled step from its components. -/
theorem enabled_of_components {s : RegState} {t : Nat} {A : Identity}
    (h : (s.thr t = .want A ∧ s.reg A = .absent)
      ∨ (s.thr t = .want A ∧ ∃ e, s.reg A = .present e)
      ∨ (s.thr t = .building A ∧ s.reg A = .constructing t)) :
    Enabled s t := by
  rcases h with ⟨h1, h2⟩ | ⟨h1, e, h2⟩ | ⟨h1, h2⟩
  · exact ⟨RegLabel.claim t A, ⟨updateReg s.reg A (.constructing t),
      updateThr s.thr t (.building A)⟩, RegStep.claim h1 h2, rfl⟩
  · exact ⟨RegLabel.hit t A, ⟨s.reg, updateThr s.thr t (.done A e)⟩,
      RegStep.hit h1 h2, rfl⟩
  · exact ⟨RegLabel.publish t A, ⟨updateReg s.reg A (.present (newEngine A)),
      updateThr s.thr t (.done A (newEngine A))⟩, RegStep.publish h1 h2, rfl⟩

/-- Helper: registry coherence is preserved by every step. -/
theorem regGood_step {s : RegState} {l : RegLabel} {s2 : RegState}
    (hg : RegGood s) (h : RegStep s l s2) : RegGood s2 := by
  obtain ⟨g1, g2, g3⟩ := hg
  cases h with
  | hit h1 h2 =>
    rename_i t0 id0 e0
    refine ⟨g1, ?_, ?_⟩
    · intro t2 id2 e2 hdone
      simp only [updateThr] at hdone
      by_cases ht : t2 = t0
      · subst ht
        rw [if_pos rfl] at hdone
        cases hdone
        refine ⟨?_, g1 _ _ h2⟩
        show s.reg id0 = RegEntry.present (newEngine id0)
        rw [h2, g1 _ _ h2]
      · rw [if_neg ht] at hdone
        exact g2 _ _ _ hdone
    · intro t2 id2 hbuild
      simp only [updateThr] at hbuild
      by_cases ht : t2 = t0
      · subst ht
        rw [if_pos rfl] at hbuild
        cases hbuild
      · rw [if_neg ht] at hbuild
        exact g3 _ _ hbuild
  | claim h1 h2 =>
    rename_i t0 id0
    refine ⟨?_, ?_, ?_⟩
    · intro id2 e2 hpres
      simp only [updateReg] at hpres
      by_cases hi : id2 = id0
      · subst hi
        rw [if_pos rfl] at hpres
        cases hpres
      · rw [if_neg hi] at hpres
        exact g1 _ _ hpres
    · intro t2 id2 e2 hdone
      simp only [updateThr] at hdone
      by_cases ht : t2 = t0
      · subst ht
        rw [if_pos rfl] at hdone
        cases hdone
      · rw [if_neg ht] at hdone
        obtain ⟨hpres, he⟩ := g2 _ _ _ hdone
        by_cases hi : id2 = id0
        · subst hi
          rw [h2] at hpres
          cases hpres
        · refine ⟨?_, he⟩
          show updateReg s.reg id0 (RegEntry.constructing t0) id2
            = RegEntry.present (newEngine id2)
          simp only [updateReg]
          rw [if_neg hi]
          exact hpres
    · intro t2 id2 hbuild
      simp only [updateThr] at hbuild
      by_cases ht : t2 = t0
      · subst ht
        rw [if_pos rfl] at hbuild
        cases hbuild
        show updateReg s.reg id0 (RegEntry.constructing t2) id0
          = RegEntry.constructing t2
        simp [updateReg]
      · rw [if_neg ht] at hbuild
        have hcon := g3 _ _ hbuild
        by_cases hi : id2 = id0
        · subst hi
          rw [h2] at hcon
          cases hcon
        · show updateReg s.reg id0 (RegEntry.constructing t0) id2
            = RegEntry.constructing t2
          simp only [updateReg]
          rw [if_neg hi]
          exact hcon
  | publish h1 h2 =>
    rename_i t0 id0
    refine ⟨?_, ?_, ?_⟩
    · intro id2 e2 hpres
      simp only [updateReg] at hpres
      by_cases hi : id2 = id0
      · subst hi
        rw [if_pos rfl] at hpres
        exact (RegEntry.present.inj hpres).symm
      · rw [if_neg hi] at hpres
        exact g1 _ _ hpres
    · intro t2 id2 e2 hdone
      simp only [updateThr] at hdone
      by_cases ht : t2 = t0
      · subst ht
        rw [if_pos rfl] at hdone
        cases hdone
        refine ⟨?_, rfl⟩
        show updateReg s.reg id0 (RegEntry.present (newEngine id0)) id0
          = RegEntry.present (newEngine id0)
        simp [updateReg]
      · rw [if_neg ht] at hdone
        obtain ⟨hpres, he⟩ := g2 _ _ _ hdone
        by_cases hi : id2 = id0
        · subst hi
          rw [h2] at hpres
          cases hpres
        · refine ⟨?_, he⟩
          show updateReg s.reg id0 (RegEntry.present (newEngine id0)) id2
            = RegEntry.present (newEngine id2)
          simp only [updateReg]
          rw [if_neg hi]
          exact hpres
    · intro t2 id2 hbuild
      simp only [updateThr] at hbuild
      by_cases ht : t2 = t0
      · subst ht
        rw [if_pos rfl] at hbuild
        cases hbuild
      · rw [if_neg ht] at hbuild
        have hcon := g3 _ _ hbuild
        by_cases hi : id2 = id0
        · subst hi
          rw [h2] at hcon
          exact absurd (RegEntry.constructing.inj hcon).symm ht
        · show updateReg s.reg id0 (RegEntry.present (newEngine id0)) id2
            = RegEntry.constructing t2
          simp only [updateReg]
          rw [if_neg hi]
          exact hcon

/-- Helper: an initial state is coherent. -/
theorem regGood_init {s : RegState} (h : RegInit s) : RegGood s := by
  obtain ⟨hreg, hthr⟩ := h
  refine ⟨?_, ?_, ?_⟩
  · intro id e hpres
    rw [hreg id] at hpres
    cases hpres
  · intro t id e hdone
    rcases hthr t with hi | ⟨id2, hi⟩ <;> rw [hi] at hdone <;> cases hdone
  · intro t id hbuild
    rcases hthr t with hi | ⟨id2, hi⟩ <;> rw [hi] at hbuild <;> cases hbuild

/-- Helper: coherence holds after any run from a coherent state. -/
theorem regGood_run {s0 : RegState} {tr : List RegLabel} {s : RegState}
    (hrun : RegRun s0 tr s) : RegGood s0 → RegGood s := by
  induction hrun with
  | nil => exact id
  | cons hstep hrun2 ih => exact fun h => ih (regGood_step h hstep)

/-- Helper: a step changes the published-engine indicator of `id`
exactly when it publishes for `id`. -/
theorem step_presentCount {s : RegState} {l : RegLabel} {s2 : RegState}
    (h : RegStep s l s2) (id : Identity) :
    presentCount s2 id
      = presentCount s id + (if isPublishFor l id then 1 else 0) := by
  cases h with
  | hit h1 h2 => simp [presentCount, isPublishFor]
  | claim h1 h2 =>
    rename_i t0 id0
    by_cases hi : id = id0
    · subst hi
      simp [presentCount, isPublishFor, updateReg, h2]
    · simp [presentCount, isPublishFor, updateReg, hi]
  | publish h1 h2 =>
    rename_i t0 id0
    by_cases hi : id = id0
    · subst hi
      simp [presentCount, isPublishFor, updateReg, h2]
    · have hi2 : ¬ id0 = id := fun he => hi he.symm
      simp [presentCount, isPublishFor, updateReg, hi, hi2]

/-- Helper: over a run, the number of publishes for `id` is the change
in the published-engine indicator — so it is 0 or 1 from an initial
state. -/
theorem run_presentCount {s0 : RegState} {tr : List RegLabel}
    {s : RegState} (hrun : RegRun s0 tr s) (id : Identity) :
    presentCount s id = presentCount s0 id + countPublish tr id := by
  induction hrun with
  | nil => simp [countPublish]
  | cons hstep hrun2 ih =>
    rename_i sA l sB ls sC
    rw [ih, step_presentCount hstep id]
    simp only [countPublish, List.filter_cons]
    cases hb : isPublishFor l id
    all_goals simp [hb]
    all_goals omega

/-- **C2.** In the registry's concurrency model: a step of a resolve
on identity B never disables an enabled resolve step on a different
identity A (no cross-identity blocking), a thread constructing A is
always able to proceed, at most one engine is ever constructed for A
over the whole run (construct-once), and any two callers that
completed resolve(A) hold the same engine, which is the fully
constructed published one (no caller observes a partially-constructed
engine). -/
theorem engineRegistry_construct_once_nonblocking
    (s0 : RegState) (tr : List RegLabel) (s : RegState)
    (h0 : RegInit s0) (hrun : RegRun s0 tr s)
    (A B : Identity) (hAB : A ≠ B) (t : Nat) :
    (∀ l s2, workingOn s t A → Enabled s t → RegStep s l s2 →
      labelId l = B → Enabled s2 t)
    ∧ (s.thr t = .building A → Enabled s t)
    ∧ countPublish tr A ≤ 1
    ∧ (∀ t1 t2 e1 e2, s.thr t1 = .done A e1 → s.thr t2 = .done A e2 →
        e1 = e2 ∧ s.reg A = .present e1) := by
  have hgood : RegGood s := regGood_run hrun (regGood_init h0)
  obtain ⟨g1, g2, g3⟩ := hgood
  refine ⟨?_, ?_, ?_, ?_⟩
  · intro l s2 hw hen hstep hlab
    have hwork2 := step_workingOn hstep
    have hnt : labelThread l ≠ t := by
      intro he
      rw [he, hlab] at hwork2
      exact hAB (workingOn_unique hw hwork2)
    have hthr : s2.thr t = s.thr t :=
      step_thr_frame hstep t (fun he => hnt he.symm)
    have hreg : s2.reg A = s.reg A := by
      refine step_reg_frame hstep A ?_
      rw [hlab]
      exact hAB
    refine @enabled_of_components s2 t A ?_
    rw [hthr, hreg]
    exact enabled_components hen hw
  · intro hbuild
    exact enabled_of_components
      (Or.inr (Or.inr ⟨hbuild, g3 _ _ hbuild⟩))
  · have hc := run_presentCount hrun A
    have h0A : presentCount s0 A = 0 := by
      simp [presentCount, h0.1 A]
    have hsA : presentCount s A ≤ 1 := by
      unfold presentCount
      cases s.reg A <;> simp
    omega
  · intro t1 t2 e1 e2 h1 h2
    obtain ⟨hp1, he1⟩ := g2 _ _ _ h1
    obtain ⟨-, he2⟩ := g2 _ _ _ h2
    subst he1
    subst he2
    exact ⟨rfl, hp1⟩

/-- Witness for C2: a two-thread run where thread 0 resolves "a" and
thread 1 resolves "b" — 0 claims "a", 1 claims "b" independently, 0
publishes — has at most one publish for "a", and thread 1, still
building "b", is not blocked. -/
theorem engineRegistry_construct_once_nonblocking_witness :
    countPublish [RegLabel.claim 0 "a", RegLabel.claim 1 "b",
      RegLabel.publish 0 "a"] "a" ≤ 1 :=
  (engineRegistry_construct_once_nonblocking
    ⟨fun _ => RegEntry.absent,
     fun t => if t = 0 then ThreadState.want "a"
       else if t = 1 then ThreadState.want "b" else ThreadState.idle⟩
    [RegLabel.claim 0 "a", RegLabel.claim 1 "b", RegLabel.publish 0 "a"]
    _
    ⟨fun _ => rfl, fun t => by
      by_cases h : t = 0
      · exact Or.inr ⟨"a", by simp [h]⟩
      · by_cases h1 : t = 1
        · exact Or.inr ⟨"b", by simp [h, h1]⟩
        · exact Or.inl (by simp [h, h1])⟩
    (RegRun.cons (RegStep.claim (by decide) (by decide))
      (RegRun.cons (RegStep.claim (by decide) (by decide))
        (RegRun.cons (RegStep.publish (by decide) (by decide))
          (RegRun.nil _))))
    "a" "b" (by decide) 0).2.2.1

end Fluid
